import Mathlib

/-!
Verification of the Ordinance daemon specification against its Python source.

Each section shallowly embeds the part of the source that a claim is about:
pure Python functions become Lean functions, Python `set`/`dict` values become
lists (with explicit no-duplicate or key-lookup reasoning where needed), byte
strings become `List Nat` with each element `< 256`, and Python exceptions
become explicit error constructors.  Floating-point time quantities are
modelled as rationals.
-/

set_option autoImplicit false
set_option linter.unusedVariables false
set_option linter.unnecessarySeqFocus false

namespace Ordinance

/-! ## Byte-level serialization (src/ordinance/database.py, src/ordinance/network.py)

Python `int.to_bytes(k)` / `int.from_bytes(bytes)` with the default big-endian
byte order (the source runs on Python ≥ 3.11, where `byteorder` defaults to
`'big'`).  A byte string is a `List Nat` whose elements are `< 256`. -/

/-- `n.to_bytes(k)`: big-endian, fixed width `k`.  Faithful for `n < 256 ^ k`
(Python raises OverflowError otherwise; theorems carry that bound). -/
def toBytesBE : Nat → Nat → List Nat
  | 0, _ => []
  | k + 1, n => toBytesBE k (n / 256) ++ [n % 256]

/-- `int.from_bytes(bytes)`: big-endian accumulation. -/
def fromBytesBE (bs : List Nat) : Nat :=
  bs.foldl (fun acc b => acc * 256 + b) 0

/-- The fixed file header `LOCAL_DATABASE_HEADER` from src/ordinance/database.py,
as its ASCII bytes. -/
def LOCAL_DATABASE_HEADER : List Nat :=
  ("Ordinance local data storage file. Do not edit, or the data will be corrupted.\n---\n").data.map Char.toNat

/-- Errors surfaced by `BaseDataset.read` / the `_deserialize` helpers:
`OSError("... is corrupted!")` on a bad header, `ValueError` from `read_n`
on a short read. -/
inductive ReadErr where
  | corruptHeader
  | shortRead
  deriving DecidableEq, Repr

namespace IPv4Dataset

/-- `IPv4Dataset._serialize` (src/ordinance/network.py lines 131-134): an
8-byte big-endian entry count followed by each value as 4 big-endian bytes.
The in-memory Python `set` is modelled as the list of its iteration order. -/
def serialize (data : List Nat) : List Nat :=
  toBytesBE 8 data.length ++ data.flatMap (fun v => toBytesBE 4 v)

/-- The value-reading loop of `IPv4Dataset._deserialize`: reads `n` 4-byte
big-endian values, failing (`ValueError` in `read_n`) when the stream is
short. -/
def deserializeVals : Nat → List Nat → Except ReadErr (List Nat)
  | 0, _ => .ok []
  | n + 1, s =>
    if s.length < 4 then .error .shortRead
    else do
      let rest ← deserializeVals n (s.drop 4)
      pure (fromBytesBE (s.take 4) :: rest)

/-- `IPv4Dataset._deserialize` (src/ordinance/network.py lines 136-146):
`file.read(8)` for the count (no short-read check there), then the value
loop. -/
def deserialize (s : List Nat) : Except ReadErr (List Nat) :=
  deserializeVals (fromBytesBE (s.take 8)) (s.drop 8)

/-- `BaseDataset.flush` (src/ordinance/database.py lines 210-214): the
resulting file contents are the header followed by the serialized set. -/
def flushFile (db : List Nat) : List Nat :=
  LOCAL_DATABASE_HEADER ++ serialize db

/-- `BaseDataset.read` (src/ordinance/database.py lines 216-230) on an
existing file: check the header prefix, then deserialize the remainder. -/
def readFile (s : List Nat) : Except ReadErr (List Nat) :=
  if s.take LOCAL_DATABASE_HEADER.length = LOCAL_DATABASE_HEADER
  then deserialize (s.drop LOCAL_DATABASE_HEADER.length)
  else .error .corruptHeader

end IPv4Dataset

theorem toBytesBE_length (k n : Nat) : (toBytesBE k n).length = k := by
  induction k generalizing n with
  | zero => rfl
  | succ k ih => simp [toBytesBE, ih]

theorem fromBytesBE_append_singleton (bs : List Nat) (b : Nat) :
    fromBytesBE (bs ++ [b]) = fromBytesBE bs * 256 + b := by
  simp [fromBytesBE]

theorem fromBytesBE_toBytesBE (k n : Nat) (h : n < 256 ^ k) :
    fromBytesBE (toBytesBE k n) = n := by
  induction k generalizing n with
  | zero =>
    interval_cases n
    rfl
  | succ k ih =>
    have hdiv : n / 256 < 256 ^ k := by
      rw [Nat.div_lt_iff_lt_mul (by norm_num)]
      calc n < 256 ^ (k + 1) := h
        _ = 256 ^ k * 256 := by ring
    rw [toBytesBE, fromBytesBE_append_singleton, ih _ hdiv]
    omega

theorem deserializeVals_serialized (db : List Nat) (hv : ∀ v ∈ db, v < 256 ^ 4) :
    IPv4Dataset.deserializeVals db.length (db.flatMap (fun v => toBytesBE 4 v)) = .ok db := by
  induction db with
  | nil => rfl
  | cons v rest ih =>
    have hlen4 : (toBytesBE 4 v).length = 4 := toBytesBE_length 4 v
    have hlen : ¬ ((toBytesBE 4 v ++ rest.flatMap (fun v => toBytesBE 4 v)).length < 4) := by
      simp [hlen4]
    have htake : (toBytesBE 4 v ++ rest.flatMap (fun v => toBytesBE 4 v)).take 4 = toBytesBE 4 v :=
      List.take_left' hlen4
    have hdrop : (toBytesBE 4 v ++ rest.flatMap (fun v => toBytesBE 4 v)).drop 4 = rest.flatMap (fun v => toBytesBE 4 v) :=
      List.drop_left' hlen4
    have hrest : ∀ w ∈ rest, w < 256 ^ 4 := fun w hw => hv w (List.mem_cons_of_mem _ hw)
    simp only [List.length_cons, List.flatMap_cons, IPv4Dataset.deserializeVals, hlen,
      if_false, htake, hdrop, ih hrest]
    rw [fromBytesBE_toBytesBE 4 v (hv v (List.mem_cons_self _ _))]
    rfl

/-- **C2.** For every set `S` of IPv4 values held in an IPv4 set store
(each value a 32-bit unsigned integer, as `IPv4Dataset._value_type`
guarantees, and fewer than `2^64` entries, as the 8-byte count field
requires), writing the backing file with `flush` and reading it back with
`read` yields exactly `S` again: `read(flush(S)) = S`. -/
theorem ipv4_read_flush_roundtrip (db : List Nat)
    (hlen : db.length < 256 ^ 8) (hv : ∀ v ∈ db, v < 256 ^ 4) :
    IPv4Dataset.readFile (IPv4Dataset.flushFile db) = .ok db := by
  unfold IPv4Dataset.flushFile IPv4Dataset.readFile
  rw [List.take_left, List.drop_left, if_pos rfl]
  unfold IPv4Dataset.deserialize IPv4Dataset.serialize
  have h8 : (toBytesBE 8 db.length).length = 8 := toBytesBE_length 8 db.length
  rw [List.take_left' h8, List.drop_left' h8, fromBytesBE_toBytesBE 8 db.length hlen]
  exact deserializeVals_serialized db hv

/-- Witness for C2 at the concrete store `{10.0.0.1, 192.168.0.1, 1.2.3.4}`
(as integers). -/
theorem ipv4_read_flush_roundtrip_witness :
    ([167772161, 3232235521, 16909060] : List Nat).length < 256 ^ 8 ∧
      (∀ v ∈ ([167772161, 3232235521, 16909060] : List Nat), v < 256 ^ 4) ∧
      IPv4Dataset.readFile (IPv4Dataset.flushFile [167772161, 3232235521, 16909060]) =
        .ok [167772161, 3232235521, 16909060] :=
  ⟨by norm_num, by decide,
    ipv4_read_flush_roundtrip [167772161, 3232235521, 16909060] (by norm_num) (by decide)⟩

/-! ## Trigger model and registration (src/ordinance/schedule.py)

Python floats for time quantities are modelled as rationals.  `DelayTrigger`'s
`delay_sec` field is modelled with a tagged value, because the source stores a
`datetime.timedelta` there rather than a float (see `add_delay_trigger`). -/

/-- A seconds quantity as it exists at runtime: either a float (`fl`, from
`timedelta.total_seconds()`) or a `datetime.timedelta` object (`td`). -/
inductive TimeVal where
  | fl (q : ℚ)
  | td (q : ℚ)
  deriving DecidableEq, Repr

/-- The four trigger dataclasses of src/ordinance/schedule.py, each with the
common `id` and `daemonic` fields. -/
inductive Trigger where
  | calendar (id : String) (daemonic : Bool) (alignTo : String) (secondsInto : ℚ)
  | delay (id : String) (daemonic : Bool) (delaySec : TimeVal)
  | event (id : String) (daemonic : Bool) (event : String)
  | periodic (id : String) (daemonic : Bool) (periodSec : ℚ)
  deriving DecidableEq, Repr

/-- `BaseTrigger.__eq__` (src/ordinance/schedule.py lines 18-26): triggers of
the same concrete class compare equal when every dataclass field other than
`id` and `daemonic` agrees; cross-class comparison returns `NotImplemented`,
which Python resolves to identity, i.e. `False` for distinct objects. -/
def trigEq : Trigger → Trigger → Bool
  | .calendar _ _ a1 s1, .calendar _ _ a2 s2 => a1 = a2 ∧ s1 = s2
  | .delay _ _ d1, .delay _ _ d2 => d1 = d2
  | .event _ _ e1, .event _ _ e2 => e1 = e2
  | .periodic _ _ p1, .periodic _ _ p2 => p1 = p2
  | _, _ => false

/-- Outcome of `ScheduledFunction.__add_trigger`.  `nameError` models the
Python `NameError` raised on line 108 of src/ordinance/schedule.py: the raise
statement reads `data_class_fail_message`, but the parameter is spelled
`data_clash_fail_message`, so the name is undefined and evaluating it raises
before the `SchedulerError` is ever constructed. -/
inductive RegResult where
  | ok (id : String) (triggers : List (String × Trigger))
  | schedulerError (msg : String)
  | nameError
  deriving DecidableEq, Repr

/-- Python `dict` assignment `d[k] = v` on an association list: overwrite in
place when the key exists, append otherwise. -/
def dictSet (l : List (String × Trigger)) (k : String) (v : Trigger) : List (String × Trigger) :=
  if (l.map Prod.fst).contains k then l.map (fun p => if p.1 = k then (k, v) else p)
  else l ++ [(k, v)]

/-- `ScheduledFunction.__add_trigger` (src/ordinance/schedule.py lines 91-111).
`genId` stands for the randomly generated `trigger-<n>` string used when no id
(or a falsy id) is supplied.  Note the loop on line 106 rebinds the local
`id`: after a non-empty loop the trigger is stored under, and the method
returns, the *last existing* key instead of the new id. -/
def add_trigger (triggers : List (String × Trigger)) (genId : String)
    (idArg : Option String) (daemonic : Bool) (mk : String → Bool → Trigger)
    (dataClashFailMessage : String) : RegResult :=
  let id0 := match idArg with
    | none => genId
    | some s => if s = "" then genId else s
  if (triggers.map Prod.fst).contains id0 then
    .schedulerError ("Scheduler with ID '" ++ id0 ++ "' is already defined for this plugin")
  else
    let new := mk id0 daemonic
    if triggers.any (fun p => trigEq new p.2) then
      .nameError
    else
      let finalId := (triggers.map Prod.fst).getLastD id0
      .ok finalId (dictSet triggers finalId new)

/-- `ScheduledFunction.add_periodic_trigger` (src/ordinance/schedule.py lines
143-147): `delta` is the timedelta's seconds as a float. -/
def add_periodic_trigger (triggers : List (String × Trigger)) (genId : String)
    (idArg : Option String) (daemonic : Bool) (delta : ℚ) : RegResult :=
  add_trigger triggers genId idArg daemonic (fun i d => .periodic i d delta)
    ("Periodic trigger of " ++ toString delta ++ " seconds already registered")

/-- `ScheduledFunction.add_delay_trigger` (src/ordinance/schedule.py lines
132-136): the source computes `delta = delay.total_seconds()` but then passes
`delay` — the `datetime.timedelta` object itself — as the `DelayTrigger`
payload, so `delay_sec` holds a timedelta, not a float. -/
def add_delay_trigger (triggers : List (String × Trigger)) (genId : String)
    (idArg : Option String) (daemonic : Bool) (delay : ℚ) : RegResult :=
  let delta := delay
  add_trigger triggers genId idArg daemonic (fun i d => .delay i d (.td delay))
    ("Delay trigger of " ++ toString delta ++ " seconds already registered")

/-- Outcome of `ScheduledFunction.add_calendar_trigger`.  `unboundLocalError`
models the Python `UnboundLocalError` raised inside the nested helper `_cap`
(src/ordinance/schedule.py lines 119-121): `_cap` assigns `into_sec` without a
`nonlocal` declaration, making `into_sec` local to `_cap`, so the very first
read in `while into_sec < 0` finds an unbound local and raises — for every
input value, in range or not. -/
inductive CalRegResult where
  | unboundLocalError
  | schedulerError (msg : String)
  | reg (r : RegResult)
  deriving DecidableEq, Repr

/-- `ScheduledFunction.add_calendar_trigger` (src/ordinance/schedule.py lines
113-130).  For each valid `align_to` the source calls `_cap`, which always
raises `UnboundLocalError`; an invalid `align_to` raises `SchedulerError`. -/
def add_calendar_trigger (_triggers : List (String × Trigger)) (_genId : String)
    (_idArg : Option String) (_daemonic : Bool) (alignTo : String) (_intoSec : ℚ) :
    CalRegResult :=
  if alignTo = "day" then .unboundLocalError
  else if alignTo = "week" then .unboundLocalError
  else if alignTo = "month" then .unboundLocalError
  else .schedulerError
    ("Unknown calendar type '" ++ alignTo ++ "' (must be 'day', 'week', or 'month')")

/-! ## Should-fire predicates (src/core/schedule_interface.py) and the tick
loop sleep (src/core/__init__.py) -/

/-- Python exception kinds surfaced by the scheduler-side code modelled
here. -/
inductive PyErr where
  | typeError
  | valueError
  | indexError
  deriving DecidableEq, Repr

/-- `delay_trigger_should_run` (src/core/schedule_interface.py lines 41-43):
`datetime.timedelta(seconds=delay_trigger.delay_sec)` requires a number; when
`delay_sec` holds a `datetime.timedelta` (which `add_delay_trigger` always
stores) the constructor raises `TypeError`. -/
def delay_trigger_should_run (delaySec : TimeVal) (totalElapsed : ℚ)
    (granularity : ℚ) : Except PyErr Bool :=
  match delaySec with
  | .fl q => .ok (decide (|totalElapsed - q| ≤ granularity))
  | .td _ => .error .typeError

/-- `time.sleep`: raises `ValueError("sleep length must be non-negative")` on
a negative argument. -/
def pySleep (secs : ℚ) : Except PyErr Unit :=
  if secs < 0 then .error .valueError else .ok ()

/-- The sleep at the end of a tick iteration of `Core._scheduler_loop`
(src/core/__init__.py line 382): `time.sleep(subtick_interval - tick_elapsed)`
with no clamping to zero.  There is no surrounding try/except, so an
exception from this call propagates and terminates the scheduler thread. -/
def tick_end_sleep (subtickInterval tickElapsed : ℚ) : Except PyErr Unit :=
  pySleep (subtickInterval - tickElapsed)

/-- **C4** (code bug).  Registering a periodic trigger with `period_sec=60`
and no id succeeds, but a second identical registration does *not* fail with
the duplicate-trigger `SchedulerError`: the structural-equality check does
hit, yet the raise statement on line 108 of src/ordinance/schedule.py reads
the misspelled name `data_class_fail_message`, so Python raises `NameError`
instead of the intended error. -/
theorem periodic_duplicate_raises_nameError :
    add_periodic_trigger [] "trigger-1" none false 60 =
      .ok "trigger-1" [("trigger-1", .periodic "trigger-1" false 60)] ∧
    add_periodic_trigger [("trigger-1", .periodic "trigger-1" false 60)]
      "trigger-2" none false 60 = .nameError := by
  constructor <;> rfl

/-- **C5** (code bug).  A calendar trigger registration with `align_to='day'`
and a negative (or any) `seconds_into` does not wrap the value and does not
succeed: `_cap` (src/ordinance/schedule.py lines 119-121) assigns `into_sec`
without `nonlocal`, so every call raises `UnboundLocalError` — for
out-of-range and in-range values alike, on all three alignments. -/
theorem calendar_registration_raises_unboundLocal :
    add_calendar_trigger [] "trigger-1" none false "day" (-10) = .unboundLocalError ∧
    add_calendar_trigger [] "trigger-1" none false "week" 700000 = .unboundLocalError ∧
    add_calendar_trigger [] "trigger-1" none false "month" 3600 = .unboundLocalError ∧
    add_calendar_trigger [] "trigger-1" none false "hour" 0 =
      .schedulerError "Unknown calendar type 'hour' (must be 'day', 'week', or 'month')" := by
  refine ⟨rfl, rfl, rfl, rfl⟩

/-- **C6** (code bug).  A delay trigger registered with delay 60 s stores the
`datetime.timedelta` object in `delay_sec` (src/ordinance/schedule.py line
136 passes `delay` instead of the computed `delta`), so at every scheduler
tick `delay_trigger_should_run` raises `TypeError` inside
`datetime.timedelta(seconds=delay_sec)` — even at `total_elapsed = 60`,
where the claim says it evaluates to true. -/
theorem delay_should_run_raises_typeError :
    add_delay_trigger [] "trigger-1" none false 60 =
      .ok "trigger-1" [("trigger-1", .delay "trigger-1" false (.td 60))] ∧
    delay_trigger_should_run (.td 60) 60 15 = .error .typeError := by
  constructor <;> rfl

/-- **C7** (code bug).  When tick work exceeds `subtick_interval` the value
passed to `time.sleep` is negative, raising `ValueError` — with
`subtick_interval = 5` and `tick_elapsed = 7` the source sleeps `-2`
seconds; un-caught, this terminates the scheduler loop. -/
theorem tick_end_sleep_negative_raises :
    (5 : ℚ) - 7 < 0 ∧ tick_end_sleep 5 7 = .error .valueError := by
  constructor
  · norm_num
  · simp [tick_end_sleep, pySleep]
    norm_num

/-! ## The command interpreter (src/core/__init__.py, `Core.command`) -/

/-- Worker for `pySplit`: scans the characters, accumulating the current
word (reversed). -/
def pySplitAux : List Char → List Char → List String
  | [], acc => if acc = [] then [] else [String.mk acc.reverse]
  | c :: rest, acc =>
    if c.isWhitespace then
      if acc = [] then pySplitAux rest []
      else String.mk acc.reverse :: pySplitAux rest []
    else pySplitAux rest (c :: acc)

/-- Python `str.split()` with no separator: split on runs of whitespace,
discarding empty pieces. -/
def pySplit (s : String) : List String :=
  pySplitAux s.data []

/-- `Core.command` (src/core/__init__.py lines 420-444), restricted to its
return value.  The bare `return` on the empty string produces Python `None`
(modelled `Option.none`) despite the `-> int` annotation.  The f-string in
the unknown-command branch indexes `cmd[0]`, which would raise `IndexError`
on a whitespace-only input; the driver loop always passes trimmed input. -/
def command (cmd : String) : Except PyErr (Option Int) :=
  if cmd = "" then .ok none
  else if cmd = "stop" then .ok (some (-1))
  else if cmd = "status" then .ok (some 0)
  else
    match pySplit cmd with
    | [] => .error .indexError
    | w :: rest =>
      if w = "alert" ∧ rest ≠ [] then .ok (some 0)
      else .ok (some (-2))

/-- The amended claim's command table, written from the spec's words as a
function of the input line: no token for the empty string, −1 for `stop`,
0 for `status`, 0 when the first word is `alert` and at least one word
follows, −2 for any other input. -/
def command_spec_table (cmd : String) : Option Int :=
  if cmd = "" then none
  else if cmd = "stop" then some (-1)
  else if cmd = "status" then some 0
  else if (pySplit cmd).head? = some "alert" ∧ 1 < (pySplit cmd).length then some 0
  else some (-2)

theorem pySplitAux_ne_nil (cs : List Char) (acc : List Char)
    (h : (∃ c ∈ cs, c.isWhitespace = false) ∨ acc ≠ []) :
    pySplitAux cs acc ≠ [] := by
  induction cs generalizing acc with
  | nil =>
    rcases h with ⟨c, hc, _⟩ | hacc
    · simp at hc
    · simp [pySplitAux, hacc]
  | cons c rest ih =>
    by_cases hw : c.isWhitespace
    · have hrest : (∃ d ∈ rest, d.isWhitespace = false) ∨ acc ≠ [] := by
        rcases h with ⟨d, hd, hdw⟩ | hacc
        · rcases List.mem_cons.mp hd with hdc | hdr
          · subst hdc; rw [hw] at hdw; exact absurd hdw (by simp)
          · exact Or.inl ⟨d, hdr, hdw⟩
        · exact Or.inr hacc
      by_cases hacc : acc = []
      · have hex : ∃ d ∈ rest, d.isWhitespace = false := by
          rcases hrest with hex | hne
          · exact hex
          · exact absurd hacc hne
        simp only [pySplitAux, if_pos hw, if_pos hacc]
        exact ih [] (Or.inl hex)
      · simp [pySplitAux, if_pos hw, hacc]
    · simp only [pySplitAux, if_neg hw]
      exact ih (c :: acc) (Or.inr (by simp))

theorem pySplit_ne_nil (cmd : String)
    (h : ∃ c ∈ cmd.data, c.isWhitespace = false) : pySplit cmd ≠ [] :=
  pySplitAux_ne_nil cmd.data [] (Or.inl h)

/-- **C8** (counterexample).  The claim says `Core.command` returns exit
token 0 for the empty string; it actually executes a bare `return`,
producing `None`, not `0`. -/
theorem command_empty_not_zero : command "" ≠ .ok (some 0) := by
  simp [command]

/-- **C8** (amended).  For every already lower-cased and trimmed input —
such an input is either empty or contains a non-whitespace character —
`Core.command` raises nothing and returns exactly the amended table's
token: `None` (no token) for the empty string, −1 for `stop`, 0 for
`status`, 0 for `alert` followed by at least one word, and −2 for any
other input. -/
theorem command_matches_table (cmd : String)
    (htrim : cmd = "" ∨ ∃ c ∈ cmd.data, c.isWhitespace = false) :
    command cmd = .ok (command_spec_table cmd) := by
  by_cases h1 : cmd = ""
  · simp [command, command_spec_table, h1]
  by_cases h2 : cmd = "stop"
  · simp [command, command_spec_table, h1, h2]
  by_cases h3 : cmd = "status"
  · simp [command, command_spec_table, h1, h2, h3]
  have hex : ∃ c ∈ cmd.data, c.isWhitespace = false := htrim.resolve_left h1
  have hsplit := pySplit_ne_nil cmd hex
  rcases hws : pySplit cmd with _ | ⟨w, rest⟩
  · exact absurd hws hsplit
  · have hcond : ((w :: rest).head? = some "alert" ∧ 1 < (w :: rest).length) ↔
        (w = "alert" ∧ rest ≠ []) := by
      constructor
      · rintro ⟨hh, hl⟩
        refine ⟨by simpa using hh, ?_⟩
        intro hnil
        rw [hnil] at hl
        simp at hl
      · rintro ⟨hh, hl⟩
        refine ⟨by simp [hh], ?_⟩
        have := List.length_pos.mpr hl
        simp
        omega
    simp only [command, command_spec_table, if_neg h1, if_neg h2, if_neg h3, hws]
    by_cases h4 : w = "alert" ∧ rest ≠ []
    · rw [if_pos h4, if_pos (hcond.mpr h4)]
    · rw [if_neg h4, if_neg (fun hc => h4 (hcond.mp hc))]

/-- Witness for C8's amended theorem at the input `alert breach`. -/
theorem command_matches_table_witness :
    (("alert breach" : String) = "" ∨
      ∃ c ∈ ("alert breach" : String).data, c.isWhitespace = false) ∧
    command "alert breach" = .ok (command_spec_table "alert breach") ∧
    command_spec_table "alert breach" = some 0 :=
  ⟨Or.inr ⟨'a', by decide, by decide⟩,
    command_matches_table "alert breach" (Or.inr ⟨'a', by decide, by decide⟩), rfl⟩

/-! ## Plugin lifecycle and firing enumeration (src/core/__init__.py)

`Core.__schedules` maps each known qname to either `None` (not loaded) or a
dict of scheduled functions, each holding its trigger dict.  Both the tick
loop and the event dispatcher skip qnames whose entry is `None`. -/

/-- One plugin's scheduled functions: sched name ↦ trigger dict. -/
abbrev SchedMap := List (String × List (String × Trigger))

/-- `Core.__schedules`: qname ↦ (`None` | sched map). -/
abbrev PluginTable := List (String × Option SchedMap)

/-- Dictionary lookup in `Core.__schedules`. -/
def lookupQ (t : PluginTable) (q : String) : Option (Option SchedMap) :=
  (t.find? (fun p => p.1 = q)).map Prod.snd

/-- Assignment `self.__schedules[qname] = None`-style update of an existing
key. -/
def setQ (t : PluginTable) (q : String) (v : Option SchedMap) : PluginTable :=
  t.map (fun p => if p.1 = q then (q, v) else p)

/-- Errors raised by the precondition checks of `Core.plugin_unload`
(src/core/__init__.py lines 278-281). -/
inductive UnloadErr where
  | pluginNotFound
  | pluginAlreadyUnloaded
  deriving DecidableEq, Repr

/-- `Core.plugin_unload` (src/core/__init__.py lines 276-319), restricted to
its effect on `Core.__schedules`.  After the precondition checks, the
`finally` clause sets `__plugins[qname]`, `__schedules[qname]` and
`__commands[qname]` to `None` on the normal path *and* on the path that
surfaces an exception, so the post-state is the same either way. -/
def plugin_unload (t : PluginTable) (q : String) : Except UnloadErr PluginTable :=
  match lookupQ t q with
  | none => .error .pluginNotFound
  | some none => .error .pluginAlreadyUnloaded
  | some (some _) => .ok (setQ t q none)

/-- The per-tick trigger enumeration of `Core._scheduler_loop`
(src/core/__init__.py lines 362-377): `sched_gen` skips qnames whose
schedules entry is `None`; every trigger passing the (time-dependent)
should-fire filter spawns one worker.  The filter is abstracted as an
arbitrary predicate so the theorem covers every tick, whatever the clock
says.  A spawned worker is recorded as (qname, sched name, trigger id). -/
def tick_fired (t : PluginTable) (shouldFire : Trigger → Bool) :
    List (String × String × String) :=
  t.flatMap (fun p =>
    match p.2 with
    | none => []
    | some scheds =>
      scheds.flatMap (fun sf =>
        (sf.2.filter (fun tr => shouldFire tr.2)).map (fun tr => (p.1, sf.1, tr.1))))

/-- Whether a trigger is an `EventTrigger` subscribed to `ev`
(src/core/__init__.py line 408). -/
def isEventTriggerFor (ev : String) : Trigger → Bool
  | .event _ _ e => e = ev
  | _ => false

/-- `Core._fire_event_thread` (src/core/__init__.py lines 397-411): iterate
the requested qnames (all known ones when the caller passes `...`), skip
those whose schedules entry is `None`, and spawn one worker per matching
event trigger.  (An unknown qname in an explicit list raises `KeyError` in
the source; no worker is spawned for it either way.) -/
def fire_event_thread (t : PluginTable) (ev : String)
    (plugins : Option (List String)) : List (String × String × String) :=
  let ps := match plugins with
    | none => t.map Prod.fst
    | some l => l
  ps.flatMap (fun q =>
    match lookupQ t q with
    | some (some scheds) =>
      scheds.flatMap (fun sf =>
        (sf.2.filter (fun tr => isEventTriggerFor ev tr.2)).map
          (fun tr => (q, sf.1, tr.1)))
    | _ => [])

theorem lookupQ_setQ_self (t : PluginTable) (q : String) (v : Option SchedMap) :
    lookupQ (setQ t q v) q = none ∨ lookupQ (setQ t q v) q = some v := by
  induction t with
  | nil => exact Or.inl rfl
  | cons p rest ih =>
    by_cases h : p.1 = q
    · right
      simp [lookupQ, setQ, List.find?, h]
    · simpa [lookupQ, setQ, List.find?, h] using ih

theorem tick_fired_setQ_none (t : PluginTable) (q : String) (f : Trigger → Bool) :
    ∀ w ∈ tick_fired (setQ t q none) f, w.1 ≠ q := by
  induction t with
  | nil => intro w hw; simp [tick_fired, setQ] at hw
  | cons p rest ih =>
    intro w hw
    by_cases h : p.1 = q
    · simp only [setQ, List.map_cons, if_pos h, tick_fired, List.flatMap_cons] at hw
      simp only [List.nil_append] at hw
      exact ih w hw
    · simp only [setQ, List.map_cons, if_neg h, tick_fired, List.flatMap_cons,
        List.mem_append] at hw
      rcases hw with hw | hw
      · rcases p with ⟨q', o⟩
        match o with
        | none => simp at hw
        | some scheds =>
          simp only [List.mem_flatMap, List.mem_map] at hw
          obtain ⟨sf, _, tr, _, rfl⟩ := hw
          exact h
      · exact ih w hw

theorem fire_event_setQ_none (t : PluginTable) (q : String) (ev : String)
    (ps : Option (List String)) :
    ∀ w ∈ fire_event_thread (setQ t q none) ev ps, w.1 ≠ q := by
  intro w hw
  simp only [fire_event_thread, List.mem_flatMap] at hw
  obtain ⟨q', hq', hmem⟩ := hw
  rcases hfind : lookupQ (setQ t q none) q' with _ | o
  · rw [hfind] at hmem; simp at hmem
  · rw [hfind] at hmem
    match o with
    | none => simp at hmem
    | some scheds =>
      simp only [List.mem_flatMap, List.mem_map] at hmem
      obtain ⟨sf, _, tr, _, rfl⟩ := hmem
      intro hwq
      have hq : q' = q := hwq
      rw [hq] at hfind
      rcases lookupQ_setQ_self t q none with h | h <;>
        rw [hfind] at h <;> simp at h

/-- **C3.** For every loaded qname `Q` (its schedules entry is present),
`plugin_unload Q` succeeds in the sense that — normally or with a surfaced
exception — the `finally` clause leaves the schedules entry `None`; in the
resulting table, every scheduler tick (for any should-fire outcome) and
every event dispatch (for any event and any target list) spawns zero workers
for `Q`. -/
theorem unload_stops_all_firings (t : PluginTable) (q : String) (m : SchedMap)
    (h : lookupQ t q = some (some m)) :
    plugin_unload t q = .ok (setQ t q none) ∧
    (∀ f, ∀ w ∈ tick_fired (setQ t q none) f, w.1 ≠ q) ∧
    (∀ ev ps, ∀ w ∈ fire_event_thread (setQ t q none) ev ps, w.1 ≠ q) := by
  refine ⟨?_, fun f => tick_fired_setQ_none t q f,
    fun ev ps => fire_event_setQ_none t q ev ps⟩
  simp [plugin_unload, h]

/-- Witness for C3 on a one-plugin table whose only trigger always fires. -/
theorem unload_stops_all_firings_witness :
    lookupQ [("honeypot", some [("scan", [("t1", Trigger.periodic "t1" false 60)])])]
      "honeypot" = some (some [("scan", [("t1", Trigger.periodic "t1" false 60)])]) ∧
    (plugin_unload [("honeypot", some [("scan", [("t1", Trigger.periodic "t1" false 60)])])]
        "honeypot" =
      .ok (setQ [("honeypot", some [("scan", [("t1", Trigger.periodic "t1" false 60)])])]
        "honeypot" none) ∧
    (∀ f, ∀ w ∈ tick_fired (setQ [("honeypot",
        some [("scan", [("t1", Trigger.periodic "t1" false 60)])])] "honeypot" none) f,
      w.1 ≠ "honeypot") ∧
    (∀ ev ps, ∀ w ∈ fire_event_thread (setQ [("honeypot",
        some [("scan", [("t1", Trigger.periodic "t1" false 60)])])] "honeypot" none) ev ps,
      w.1 ≠ "honeypot")) :=
  ⟨rfl, unload_stops_all_firings _ "honeypot" _ rfl⟩

/-! ## IPv4 parsing and the blacklist/whitelist stores
(src/ordinance/network.py, src/ordinance/database.py) -/

/-- Worker for `splitOnChar`, accumulating the current piece (reversed). -/
def splitOnCharAux (sep : Char) : List Char → List Char → List String
  | [], acc => [String.mk acc.reverse]
  | c :: rest, acc =>
    if c = sep then String.mk acc.reverse :: splitOnCharAux sep rest []
    else splitOnCharAux sep rest (c :: acc)

/-- Python `str.split(sep)` for a one-character separator. -/
def splitOnChar (sep : Char) (s : String) : List String :=
  splitOnCharAux sep s.data []

/-- `clean_ip` (src/ordinance/network.py lines 29-33): `ip.split("/")[0]`,
i.e. strip a CIDR suffix. -/
def clean_ip (ip : String) : String :=
  (splitOnChar '/' ip).headD ip

/-- Python `int(s)` on a decimal numeral, as used by `intff`.  Python's
`int()` also accepts surrounding whitespace, a sign, and underscores; the
canonical all-digit form modelled here is all the claims exercise. -/
def pyIntParse (s : String) : Option Nat :=
  if s.data ≠ [] ∧ s.data.all Char.isDigit then
    some (s.data.foldl (fun a c => a * 10 + (c.toNat - 48)) 0)
  else none

/-- The `intff` helper inside `ip_to_int` (src/ordinance/network.py lines
86-88): `int(i)` followed by `assert 255 >= i >= 0`. -/
def intff (s : String) : Option Nat :=
  match pyIntParse s with
  | some n => if n ≤ 255 then some n else none
  | none => none

/-- `ip_to_int` (src/ordinance/network.py lines 84-99): exactly four
dot-separated octets combined big-endian (for octets `< 256` the source's
shift-and-or equals this sum of shifted bytes); every failure becomes
`IPInvalid`, modelled as `none`. -/
def ip_to_int (ip : String) : Option Nat :=
  match splitOnChar '.' (clean_ip ip) with
  | [a, b, c, d] => do
    let p1 ← intff a
    let p2 ← intff b
    let p3 ← intff c
    let p4 ← intff d
    pure (p1 * 16777216 + p2 * 65536 + p3 * 256 + p4)
  | _ => none

/-- A value handed to `IPv4Dataset._value_type`: a Python `int` or `str`. -/
inductive IPInput where
  | int (n : Int)
  | str (s : String)
  deriving DecidableEq, Repr

/-- `IPv4Dataset._value_type` (src/ordinance/network.py lines 148-155): an
`int` must lie in `[0, 2^32 - 1]`, a `str` goes through `ip_to_int`; any
failure is re-raised by the caller as `TypeError` (modelled `none`). -/
def ipv4_value_type (v : IPInput) : Option Nat :=
  match v with
  | .int n => if 0 ≤ n ∧ n ≤ 0xFFFFFFFF then some n.toNat else none
  | .str s => ip_to_int s

/-- `BaseDataset.add` (src/ordinance/database.py lines 143-147): type-cast the
value, then add it to this dataset's own backing set — and to nothing else.
The Python `set` is modelled as a duplicate-free list. -/
def dataset_add (db : List Nat) (v : IPInput) : Option (List Nat) :=
  (ipv4_value_type v).map (fun n => if db.contains n then db else db ++ [n])

/-- The two module-level stores of src/ordinance/network.py lines 157-158. -/
structure NetState where
  black : List Nat
  white : List Nat
  deriving DecidableEq, Repr

/-- `ordinance.network.blacklist.add(v)`: mutates only the blacklist store.
No code path consults or updates the whitelist. -/
def blacklist_add (st : NetState) (v : IPInput) : Option NetState :=
  (dataset_add st.black v).map (fun b => { st with black := b })

/-- **C1** (counterexample).  With `1.2.3.4` (= 16909060) already in the
whitelist, `blacklist.add` of the same address succeeds and leaves the
address in *both* stores: the claim's `a ∉ whitelist` and the empty-
intersection invariant are both false after this mutation. -/
theorem blacklist_add_violates_disjointness :
    blacklist_add ⟨[], [16909060]⟩ (.str "1.2.3.4") =
      some ⟨[16909060], [16909060]⟩ ∧
    ¬ (16909060 ∉ ([16909060] : List Nat)) ∧
    ([16909060] : List Nat) ∩ [16909060] ≠ [] := by
  refine ⟨rfl, by simp, by simp⟩

/-- **C1** (amended).  After `blacklist.add(a)` returns successfully, `a` is
a member of the blacklist; the whitelist is left untouched, so an address
that was whitelisted before stays whitelisted and the two stores need not be
disjoint — no mutation enforces the intersection invariant. -/
theorem blacklist_add_membership (st : NetState) (v : IPInput) (n : Nat)
    (h : ipv4_value_type v = some n) :
    ∃ st2, blacklist_add st v = some st2 ∧ n ∈ st2.black ∧ st2.white = st.white := by
  refine ⟨{ st with black := if st.black.contains n then st.black else st.black ++ [n] },
    ?_, ?_, rfl⟩
  · simp [blacklist_add, dataset_add, h]
  · by_cases hc : n ∈ st.black
    · simp [hc]
    · simp [hc]

/-- Witness for C1's amended theorem at `10.0.0.1` over a store that already
holds two other addresses. -/
theorem blacklist_add_membership_witness :
    ipv4_value_type (.str "10.0.0.1") = some 167772161 ∧
    (∃ st2, blacklist_add ⟨[5], [7]⟩ (.str "10.0.0.1") = some st2 ∧
      167772161 ∈ st2.black ∧ st2.white = ([7] : List Nat)) :=
  ⟨rfl, blacklist_add_membership ⟨[5], [7]⟩ (.str "10.0.0.1") 167772161 rfl⟩

/-! ## The writer (log sink) module (src/ordinance/writer.py)

The module keeps a known-types dict `__classes : name ↦ class` and a list
`__enabled` of live writer instances.  `isinstance(writer, typ)` is modelled
as equality of the instance's class name with the registered name: the
bundled writer classes are distinct, unrelated types. -/

/-- A live writer instance: its class (by registered name) and whether
`close()` has been called on it. -/
structure Writer where
  cls : String
  closed : Bool
  deriving DecidableEq, Repr

/-- Outcome of `ordinance.writer.disable`. -/
inductive DisableResult where
  | writerNotFound
  | writerAlreadyDisabled
  | ok (enabled : List Writer)
  deriving DecidableEq, Repr

/-- The scan of `disable` over `__enabled` (src/ordinance/writer.py lines
116-119): call `close()` on the first instance of the class and return —
leaving the instance in the list — or fall through to
`WriterAlreadyDisabled`. -/
def disableScan (name : String) : List Writer → DisableResult
  | [] => .writerAlreadyDisabled
  | w :: rest =>
    if w.cls = name then .ok ({ w with closed := true } :: rest)
    else
      match disableScan name rest with
      | .ok rest2 => .ok (w :: rest2)
      | r => r

/-- `ordinance.writer.disable` (src/ordinance/writer.py lines 112-119). -/
def disable (classes : List String) (enabled : List Writer) (name : String) :
    DisableResult :=
  if ¬ classes.contains name then .writerNotFound
  else disableScan name enabled

/-- `ordinance.writer.get_enabled` (src/ordinance/writer.py lines 121-126):
the registered names for which some enabled instance matches.  The source
builds a `set`; we keep the names in registration order. -/
def get_enabled (classes : List String) (enabled : List Writer) : List String :=
  classes.filter (fun n => enabled.any (fun w => w.cls = n))

/-- The fan-out helpers `debug`/`info`/`success`/`warn`/`error`/`critical`/
`alert` (src/ordinance/writer.py lines 131-144): each iterates the whole
`__enabled` list and invokes the writer's `handle` through the severity
wrapper.  A call is recorded as (writer class, closed flag, severity,
message). -/
def fanout (enabled : List Writer) (severity : Nat) (msg : String) :
    List (String × Bool × Nat × String) :=
  enabled.map (fun w => (w.cls, w.closed, severity, msg))

theorem disableScan_found (name : String) (pre : List Writer) (w : Writer)
    (post : List Writer) (hpre : ∀ u ∈ pre, u.cls ≠ name) (hw : w.cls = name) :
    disableScan name (pre ++ w :: post) =
      .ok (pre ++ { w with closed := true } :: post) := by
  induction pre with
  | nil => simp [disableScan, hw]
  | cons u rest ih =>
    have hu : u.cls ≠ name := hpre u (by simp)
    have hrest := ih (fun x hx => hpre x (by simp [hx]))
    simp only [List.cons_append, disableScan, if_neg hu, List.append_eq, hrest]

theorem disableScan_alreadyDisabled_iff (name : String) (en : List Writer) :
    disableScan name en = .writerAlreadyDisabled ↔ ∀ u ∈ en, u.cls ≠ name := by
  induction en with
  | nil => simp [disableScan]
  | cons w rest ih =>
    constructor
    · intro h
      simp only [disableScan] at h
      by_cases hwc : w.cls = name
      · rw [if_pos hwc] at h; exact absurd h (by simp)
      · rw [if_neg hwc] at h
        intro u hu
        rcases List.mem_cons.mp hu with hu2 | hu2
        · subst hu2; exact hwc
        · rcases hscan : disableScan name rest with _ | _ | l <;> rw [hscan] at h
          · exact absurd h (by simp)
          · exact (ih.mp hscan) u hu2
          · exact absurd h (by simp)
    · intro hnone
      have hw : w.cls ≠ name := hnone w (by simp)
      have hrest := ih.mpr (fun u hu => hnone u (by simp [hu]))
      simp only [disableScan, if_neg hw, hrest]

/-- **C10.** For a registered sink name whose class has exactly one enabled
instance (the list splits as `pre ++ w :: post` with the match only at `w`),
`disable(name)` succeeds, marks that instance closed, and keeps it in the
enabled list (same length, same classes in the same order); the name still
appears in `get_enabled()`, and every fan-out call still produces a `handle`
invocation on that instance; `WriterAlreadyDisabled` results exactly when
the name is registered but no enabled instance has its class. -/
theorem disable_closes_but_keeps (classes : List String) (pre : List Writer)
    (w : Writer) (post : List Writer) (name : String)
    (hreg : classes.contains name = true)
    (hw : w.cls = name)
    (hpre : ∀ u ∈ pre, u.cls ≠ name)
    (hpost : ∀ u ∈ post, u.cls ≠ name) :
    disable classes (pre ++ w :: post) name =
      .ok (pre ++ { w with closed := true } :: post) ∧
    (pre ++ { w with closed := true } :: post).length = (pre ++ w :: post).length ∧
    (pre ++ { w with closed := true } :: post).map Writer.cls =
      (pre ++ w :: post).map Writer.cls ∧
    name ∈ get_enabled classes (pre ++ { w with closed := true } :: post) ∧
    (∀ severity msg,
      (name, true, severity, msg) ∈
        fanout (pre ++ { w with closed := true } :: post) severity msg) ∧
    (∀ cs en nm, disable cs en nm = .writerAlreadyDisabled ↔
      (cs.contains nm = true ∧ ∀ u ∈ en, u.cls ≠ nm)) := by
  have hmem : ({ w with closed := true } : Writer) ∈
      pre ++ { w with closed := true } :: post := by simp
  refine ⟨?_, by simp, by simp, ?_, ?_, ?_⟩
  · have hmemc : name ∈ classes := by simpa using hreg
    have hstep : disable classes (pre ++ w :: post) name =
        disableScan name (pre ++ w :: post) := by
      simp [disable, hmemc]
    rw [hstep]
    exact disableScan_found name pre w post hpre hw
  · simp only [get_enabled, List.mem_filter]
    refine ⟨by simpa using hreg, ?_⟩
    rw [List.any_eq_true]
    exact ⟨_, hmem, by simp [hw]⟩
  · intro severity msg
    simp only [fanout, List.mem_map]
    exact ⟨_, hmem, by simp [hw]⟩
  · intro cs en nm
    by_cases hr : cs.contains nm = true
    · have hm : nm ∈ cs := by simpa using hr
      have hstep : disable cs en nm = disableScan nm en := by simp [disable, hm]
      rw [hstep, disableScan_alreadyDisabled_iff]
      simp [hr, hm]
    · have hm : nm ∉ cs := by simpa using hr
      have hstep : disable cs en nm = .writerNotFound := by simp [disable, hm]
      rw [hstep]
      constructor
      · intro h; exact absurd h (by simp)
      · rintro ⟨hcontra, _⟩; exact absurd hcontra hr

/-- Witness for C10: a stdout writer and a logfile writer enabled; disable
the logfile sink. -/
theorem disable_closes_but_keeps_witness :
    (["stdout", "logfile"] : List String).contains "logfile" = true ∧
    disable ["stdout", "logfile"] [⟨"stdout", false⟩, ⟨"logfile", false⟩] "logfile" =
      .ok [⟨"stdout", false⟩, ⟨"logfile", true⟩] ∧
    "logfile" ∈ get_enabled ["stdout", "logfile"] [⟨"stdout", false⟩, ⟨"logfile", true⟩] := by
  have h := disable_closes_but_keeps ["stdout", "logfile"] [⟨"stdout", false⟩]
    ⟨"logfile", false⟩ [] "logfile" (by decide) rfl
    (by intro u hu; simp at hu; subst hu; decide)
    (by intro u hu; simp at hu)
  exact ⟨by decide, h.1, h.2.2.2.1⟩

/-! ## `deep_merge` (src/core/plugin_interface.py lines 21-32)

Config values are YAML scalars and nested mappings.  Python dicts are
association lists with unique keys; `dict.get(k)` returns `None` on a
missing key. -/

/-- A Python config value as `deep_merge` sees it. -/
inductive PyVal where
  | pynone
  | pyint (n : Int)
  | pybool (b : Bool)
  | pystr (s : String)
  | pydict (entries : List (String × PyVal))

/-- Python truthiness (`bool(v)`), as used by `v2 or v1`: `None`, `0`,
`False`, `""` and `{}` are falsy. -/
def truthy : PyVal → Bool
  | .pynone => false
  | .pyint n => n ≠ 0
  | .pybool b => b
  | .pystr s => s ≠ ""
  | .pydict d => !d.isEmpty

/-- `dict.get(k)` with the default `None`. -/
def pyGet (d : List (String × PyVal)) (k : String) : PyVal :=
  match d.find? (fun p => p.1 = k) with
  | some p => p.2
  | none => .pynone

/-- `d[k]` as an option, for stating lookup facts. -/
def pyGetOpt (d : List (String × PyVal)) (k : String) : Option PyVal :=
  (d.find? (fun p => p.1 = k)).map Prod.snd

theorem sizeOf_pyGet_le (d : List (String × PyVal)) (k : String) :
    sizeOf (pyGet d k) ≤ sizeOf d := by
  induction d with
  | nil => simp [pyGet]
  | cons p rest ih =>
    rcases p with ⟨k1, v1⟩
    by_cases h : k1 = k
    · subst h
      have hstep : pyGet ((k1, v1) :: rest) k1 = v1 := by
        simp [pyGet, List.find?]
      rw [hstep]
      simp only [List.cons.sizeOf_spec, Prod.mk.sizeOf_spec]
      omega
    · have hstep : pyGet ((k1, v1) :: rest) k = pyGet rest k := by
        simp [pyGet, List.find?, h]
      rw [hstep]
      simp only [List.cons.sizeOf_spec]
      omega

mutual

/-- The `_val` helper of `deep_merge`: recurse when both values are
mappings, otherwise `v2 or v1` — the user's value only when it is truthy. -/
def mergeVal : PyVal → PyVal → PyVal
  | .pydict a, .pydict b => .pydict (deep_merge a b)
  | v1, v2 => if truthy v2 then v2 else v1
termination_by v1 v2 => sizeOf v1 + sizeOf v2
decreasing_by
  simp
  omega

/-- The part of the comprehension `{k: _val(...) for k in keys1 | keys2}`
covering the keys of `dict1`, in `dict1`'s order. -/
def mergeInto : List (String × PyVal) → List (String × PyVal) → List (String × PyVal)
  | [], _ => []
  | (k, v1) :: rest, d2 => (k, mergeVal v1 (pyGet d2 k)) :: mergeInto rest d2
termination_by d1 d2 => sizeOf d1 + sizeOf d2
decreasing_by
  all_goals have := sizeOf_pyGet_le d2 k
  all_goals simp
  all_goals omega

/-- `deep_merge(dict1, dict2)`.  The Python comprehension iterates a key
*set*, whose order is hash-dependent; we fix the enumeration to `dict1`'s
keys followed by the remaining keys of `dict2`.  Keys only in `dict2` get
`_val(None, v2) = v2 or None`. -/
def deep_merge (d1 d2 : List (String × PyVal)) : List (String × PyVal) :=
  mergeInto d1 d2 ++
    (d2.filter (fun p => (d1.find? (fun q => q.1 = p.1)).isNone)).map
      (fun p => (p.1, if truthy p.2 then p.2 else .pynone))
termination_by sizeOf d1 + sizeOf d2 + 1
decreasing_by
  omega

end

/-- Whether a value is a Python `dict` (`isinstance(v, dict)`). -/
def isDict : PyVal → Bool
  | .pydict _ => true
  | _ => false

theorem pyGetOpt_mergeInto (d1 d2 : List (String × PyVal)) (k : String) (v1 : PyVal)
    (h1 : pyGetOpt d1 k = some v1) :
    pyGetOpt (mergeInto d1 d2) k = some (mergeVal v1 (pyGet d2 k)) := by
  induction d1 with
  | nil => simp [pyGetOpt] at h1
  | cons p rest ih =>
    rcases p with ⟨k1, w⟩
    by_cases h : k1 = k
    · subst h
      have hw : w = v1 := by
        simpa [pyGetOpt, List.find?] using h1
      subst hw
      simp [mergeInto, pyGetOpt, List.find?]
    · have h1r : pyGetOpt rest k = some v1 := by
        simpa [pyGetOpt, List.find?, h] using h1
      have hrec := ih h1r
      simp only [mergeInto]
      simpa [pyGetOpt, List.find?, h] using hrec

theorem pyGet_of_pyGetOpt (d : List (String × PyVal)) (k : String) (v : PyVal)
    (h : pyGetOpt d k = some v) : pyGet d k = v := by
  simp only [pyGetOpt, Option.map_eq_some'] at h
  obtain ⟨p, hp, hv⟩ := h
  simp [pyGet, hp, hv]

theorem mergeVal_not_both_dicts (v1 v2 : PyVal)
    (h : ¬ (isDict v1 = true ∧ isDict v2 = true)) :
    mergeVal v1 v2 = if truthy v2 then v2 else v1 := by
  cases v1 <;> cases v2 <;> simp [mergeVal] <;> exact absurd (by simp [isDict]) h

/-- **C9** (counterexample).  `deep_merge({'a': 1}, {'a': 0})` yields
`{'a': 1}`: the falsy user value `0` loses to the default because `_val`
returns `v2 or v1`, so the claim that user values win on leaf conflicts
"including falsy user leaf values" is false. -/
theorem deep_merge_falsy_user_loses :
    deep_merge [("a", PyVal.pyint 1)] [("a", PyVal.pyint 0)] = [("a", PyVal.pyint 1)] ∧
    deep_merge [("a", PyVal.pyint 1)] [("a", PyVal.pyint 0)] ≠ [("a", PyVal.pyint 0)] := by
  have hval : deep_merge [("a", PyVal.pyint 1)] [("a", PyVal.pyint 0)] =
      [("a", PyVal.pyint 1)] := by
    simp [deep_merge, mergeInto, mergeVal, pyGet, truthy, List.find?, List.filter]
  refine ⟨hval, ?_⟩
  rw [hval]
  simp

/-- **C9** (amended).  For every key present in both mappings, `deep_merge`
recurses when both values are mappings and otherwise returns `v2 or v1`:
the user's value wins only when it is truthy, and a falsy user leaf value
(such as `0`, `False` or `""`) falls back to the default's value. -/
theorem deep_merge_lookup (d1 d2 : List (String × PyVal)) (k : String)
    (v1 v2 : PyVal) (h1 : pyGetOpt d1 k = some v1) (h2 : pyGetOpt d2 k = some v2) :
    pyGetOpt (deep_merge d1 d2) k = some (mergeVal v1 v2) ∧
    (∀ a b, v1 = .pydict a → v2 = .pydict b →
      mergeVal v1 v2 = .pydict (deep_merge a b)) ∧
    (¬ (isDict v1 = true ∧ isDict v2 = true) →
      mergeVal v1 v2 = if truthy v2 then v2 else v1) := by
  refine ⟨?_, ?_, mergeVal_not_both_dicts v1 v2⟩
  · have hmain := pyGetOpt_mergeInto d1 d2 k v1 h1
    rw [pyGet_of_pyGetOpt d2 k v2 h2] at hmain
    rw [deep_merge]
    simp only [pyGetOpt, List.find?_append]
    simp only [pyGetOpt, Option.map_eq_some'] at hmain
    obtain ⟨p, hp, hv⟩ := hmain
    simp [hp, hv]
  · rintro a b rfl rfl
    rw [mergeVal]

/-- Witness for C9's amended theorem: a nested mapping branch merges
recursively while a falsy user leaf loses. -/
theorem deep_merge_lookup_witness :
    pyGetOpt [("net", PyVal.pydict [("port", PyVal.pyint 80)])] "net" =
      some (PyVal.pydict [("port", PyVal.pyint 80)]) ∧
    pyGetOpt [("net", PyVal.pydict [("port", PyVal.pyint 0)])] "net" =
      some (PyVal.pydict [("port", PyVal.pyint 0)]) ∧
    pyGetOpt (deep_merge [("net", PyVal.pydict [("port", PyVal.pyint 80)])]
        [("net", PyVal.pydict [("port", PyVal.pyint 0)])]) "net" =
      some (mergeVal (PyVal.pydict [("port", PyVal.pyint 80)])
        (PyVal.pydict [("port", PyVal.pyint 0)])) :=
  ⟨rfl, rfl,
    (deep_merge_lookup [("net", PyVal.pydict [("port", PyVal.pyint 80)])]
      [("net", PyVal.pydict [("port", PyVal.pyint 0)])] "net"
      (PyVal.pydict [("port", PyVal.pyint 80)])
      (PyVal.pydict [("port", PyVal.pyint 0)]) rfl rfl).1⟩

end Ordinance
